import Mathlib

/-!
# Verification of the scoped sub-arena mechanism (`src/scoped.rs`)

A shallow embedding of the `SubArena` / `SubArenaBuilder` machinery of the
typed-arena crate.  Buffers (`Vec<T>`) are modelled as `List T`, the chunk
list as a structure with a `current` buffer and the archived `rest` buffers,
and the `RefCell` dynamic-borrow discipline as an explicit `borrowed` flag
threaded through state-passing functions.  Fallible operations (those that
panic on a live conflicting borrow in Rust) return `Except ArenaError`.

The base allocator (`lib.rs` of the crate) is not part of the given sources;
its pieces are modelled from the spec and marked `Modelled from the spec:`
in their doc comments.  Everything else is translated directly from
`src/scoped.rs`.
-/

namespace TypedArena

/-- The sole error of the core: a conflicting dynamic borrow
(`RefCell::borrow_mut` panics in Rust). -/
inductive ArenaError : Type where
  | BorrowConflict : ArenaError
deriving DecidableEq, Repr

/-- Modelled from the spec: the chunk list of the base allocator
(`crate::ChunkList`, defined in the crate's `lib.rs`, absent from `src/`;
its `current`/`rest` fields are visible in `scoped.rs`).
`current` is the one growable buffer values are placed into; `rest` holds
the previously-filled, archived buffers. -/
structure ChunkList (T : Type) : Type where
  current : List T
  rest : List (List T)
deriving DecidableEq, Repr

/-- Modelled from the spec: the base allocator (`crate::Arena`, from the
crate's `lib.rs`, absent from `src/`).  It owns one chunk list behind a
runtime-checked exclusive-access cell (`RefCell`); `borrowed` is the cell's
dynamic-borrow flag. -/
structure Arena (T : Type) : Type where
  chunks : ChunkList T
  borrowed : Bool
deriving DecidableEq, Repr

/-- Modelled from the spec: `Arena::new` starts with empty storage and no
live borrow. -/
def Arena.new (T : Type) : Arena T :=
  { chunks := { current := [], rest := [] }, borrowed := false }

/-- Modelled from the spec: one allocation step on a chunk list — `place`
appends the value to `current`, or, on a buffer-growth event
(`archive_current_and_grow`), archives today's `current` into `rest` and
starts a fresh `current` holding the value.  The capacity policy that
decides when growth happens is explicitly out of scope in the spec, so the
growth decision is abstracted as the boolean `grow`.  The archive position
(at the end of `rest`, so `rest` is ordered first-archived first) is pinned
down by spec §4.1 step 1, which says the buffer that was `current` at theft
time is found at the FIRST position of `rest` after any number of later
growth events. -/
def ChunkList.place {T : Type} (c : ChunkList T) (v : T) (grow : Bool) :
    ChunkList T :=
  if grow then { current := [v], rest := c.rest ++ [c.current] }
  else { current := c.current ++ [v], rest := c.rest }

/-- A whole sequence of allocation steps, each with its growth decision. -/
def ChunkList.placeAll {T : Type} (c : ChunkList T)
    (xs : List (T × Bool)) : ChunkList T :=
  xs.foldl (fun acc x => acc.place x.1 x.2) c

/-- Modelled from the spec: `Arena::alloc` goes through
`self.chunks.borrow_mut()`, so it fails with `BorrowConflict` while the
chunk list is exclusively borrowed (e.g. by a live `SubArena`); otherwise
it performs one `place` step and releases the short-lived borrow. -/
def Arena.allocE {T : Type} (a : Arena T) (v : T) (grow : Bool) :
    Except ArenaError (Arena T) :=
  if a.borrowed then .error .BorrowConflict
  else .ok { chunks := a.chunks.place v grow, borrowed := false }

/-- A scoped sub-arena (scoped.rs lines 41-45).  `inner` is the freshly
constructed allocator holding the stolen buffer; `old` is the parent's
chunk list, held through the live exclusive borrow (`RefMut`) for the whole
lifetime of the sub-arena; `old_len` is the length of the stolen buffer at
theft time (the boundary). -/
structure SubArena (T : Type) : Type where
  inner : Arena T
  old : ChunkList T
  old_len : Nat
deriving DecidableEq, Repr

/-- `SubArena::from_chunks` (scoped.rs lines 155-169): take ownership of the
parent's `current` buffer (replacing it in place by `Vec::new()`), record
its length, and build a fresh inner arena whose chunk list is
`{ current := stolen buffer, rest := [] }`. -/
def SubArena.from_chunks {T : Type} (old : ChunkList T) : SubArena T :=
  let inner_vec := old.current
  let old_after := { old with current := ([] : List T) }
  let old_len := inner_vec.length
  { inner := { chunks := { current := inner_vec, rest := [] }, borrowed := false },
    old := old_after,
    old_len := old_len }

/-- `SubArena::new` (scoped.rs lines 150-153): `arena.chunks.borrow_mut()`
fails with `BorrowConflict` if a borrow is already live, then
`from_chunks` steals the current buffer. -/
def SubArena.newE {T : Type} (a : Arena T) : Except ArenaError (SubArena T) :=
  if a.borrowed then .error .BorrowConflict
  else .ok (SubArena.from_chunks a.chunks)

/-- The parent arena's state while the sub-arena is alive: its cell holds
whatever the live borrow (`s.old`) holds, and its borrow flag is set. -/
def SubArena.parentDuring {T : Type} (s : SubArena T) : Arena T :=
  { chunks := s.old, borrowed := true }

/-- Allocation through a sub-arena is delegated entirely to `inner`
(the `Deref` impl, scoped.rs lines 187-193, plus `Arena::alloc`).  It fails
if `inner` itself is borrowed (i.e. a nested sub-arena is alive). -/
def SubArena.allocE {T : Type} (s : SubArena T) (v : T) (grow : Bool) :
    Except ArenaError (SubArena T) :=
  if s.inner.borrowed then .error .BorrowConflict
  else .ok { s with inner := { chunks := s.inner.chunks.place v grow, borrowed := false } }

/-- Run a whole sequence of allocations through a sub-arena. -/
def SubArena.runE {T : Type} (s : SubArena T) :
    List (T × Bool) → Except ArenaError (SubArena T)
  | [] => .ok s
  | x :: xs => (s.allocE x.1 x.2).bind fun t => t.runE xs

/-- The buffer selected for truncation by the destructor:
`inner.rest.get_mut(0).unwrap_or(&mut inner.current)` (scoped.rs line 176) —
the first-archived buffer of `rest` when `rest` is non-empty, else
`current`. -/
def boundaryBuf {T : Type} (c : ChunkList T) : List T :=
  (c.rest.head?).getD c.current

/-- The truncation loop of the destructor (scoped.rs lines 179-181):
`while stolen_vec.len() > old_len { stolen_vec.pop(); }`.  Returns the
remaining buffer together with the popped elements in the order they were
destroyed (most recently placed element first). -/
def truncTrace {T : Type} (v : List T) (n : Nat) : List T × List T :=
  if h : n < v.length then
    have hne : v ≠ [] := by
      intro hv
      rw [hv] at h
      exact Nat.not_lt_zero n h
    have : v.dropLast.length < v.length := by
      rw [List.length_dropLast]
      omega
    let p := truncTrace v.dropLast n
    (p.1, v.getLast hne :: p.2)
  else (v, [])
termination_by v.length

/-- The outcome of dropping a `SubArena`: the restored parent arena, the
elements destroyed by the truncation loop (in destruction order), the
buffer swapped out of the parent's `current` (the empty placeholder, in
every reachable state), and the buffers destroyed wholesale when `inner`
itself is dropped. -/
structure DropResult (T : Type) : Type where
  parent : Arena T
  truncRemoved : List T
  swappedOut : List T
  wholesale : List (List T)
deriving DecidableEq, Repr

/-- `Drop for SubArena` (scoped.rs lines 172-185): select the buffer
containing the boundary (`rest.get_mut(0).unwrap_or(&mut current)`,
replacing it in place by `Vec::new()`), pop it down to `old_len` elements,
swap it into the parent's `current`, then release the borrow and drop
`inner`, destroying wholesale every remaining buffer (those created by
growth events during the scope). -/
def SubArena.dropFull {T : Type} (s : SubArena T) : DropResult T :=
  let stolen_vec := boundaryBuf s.inner.chunks
  let p := truncTrace stolen_vec s.old_len
  { parent := { chunks := { current := p.1, rest := s.old.rest }, borrowed := false },
    truncRemoved := p.2,
    swappedOut := s.old.current,
    wholesale :=
      match s.inner.chunks.rest with
      | [] => []
      | _ :: t => t ++ [s.inner.chunks.current] }

/-- All elements destroyed by a drop, listed in storage order: the
truncated tail of the boundary buffer, then the wholesale-dropped buffers,
then whatever was swapped out of the parent's `current`. -/
def DropResult.destroyedElems {T : Type} (r : DropResult T) : List T :=
  r.truncRemoved.reverse ++ r.wholesale.flatten ++ r.swappedOut

/-- The variance-adapter handle (scoped.rs lines 92-95): it holds the live
exclusive borrow of the parent's chunk list (`data`, a lifetime-erased
`RefMut`), having not yet stolen anything. -/
structure SubArenaBuilder (T : Type) : Type where
  data : ChunkList T
deriving DecidableEq, Repr

/-- `SubArenaBuilder::new` (scoped.rs lines 102-110): acquire the exclusive
borrow (failing with `BorrowConflict` if one is live); the chunk list
itself is untouched.  The `mem::transmute` only erases the
compile-time-tracked lifetime, so it is invisible at the value level. -/
def SubArenaBuilder.newE {T : Type} (a : Arena T) :
    Except ArenaError (SubArenaBuilder T) :=
  if a.borrowed then .error .BorrowConflict
  else .ok { data := a.chunks }

/-- The parent arena's state while the builder holds the borrow. -/
def SubArenaBuilder.parentDuring {T : Type} (b : SubArenaBuilder T) : Arena T :=
  { chunks := b.data, borrowed := true }

/-- `SubArenaBuilder::build` (scoped.rs lines 115-120): re-specialize the
lifetime (a value-level no-op) and complete construction via
`from_chunks`. -/
def SubArenaBuilder.build {T : Type} (b : SubArenaBuilder T) : SubArena T :=
  SubArena.from_chunks b.data

/-- Dropping a builder without calling `build`: the `RefMut` is released,
writing nothing; the parent gets its (untouched) chunk list back and is
borrowable again. -/
def SubArenaBuilder.dropB {T : Type} (b : SubArenaBuilder T) : Arena T :=
  { chunks := b.data, borrowed := false }

/-- All elements held by a chunk list, in insertion order. -/
def ChunkList.elems {T : Type} (c : ChunkList T) : List T :=
  c.rest.flatten ++ c.current

/-- `Vec::pop`: remove and return the last element, `none` on an empty
buffer. -/
def popV {T : Type} (v : List T) : Option (List T × T) :=
  match v.getLast? with
  | none => none
  | some x => some (v.dropLast, x)

/-- A fallibility-explicit rendering of the truncation loop: each iteration
pops (propagating a failure if the buffer were unexpectedly empty), and the
iteration count is bounded by the given fuel.  Used to state that the
destructor's loop is total. -/
def truncFuel {T : Type} : Nat → List T → Nat → Option (List T × List T)
  | 0, v, n => if n < v.length then none else some (v, [])
  | f + 1, v, n =>
    if n < v.length then
      match popV v with
      | none => none
      | some p => (truncFuel f p.1 n).map fun q => (q.1, p.2 :: q.2)
    else some (v, [])

/-- A fallibility-explicit rendering of the whole destructor: the buffer
selection `inner.rest.get_mut(0)` is an explicit `Option` resolved by
`unwrap_or(&mut inner.current)` (`Option.getD`), and the truncation loop
runs on fuel equal to the selected buffer's length. -/
def SubArena.dropChecked {T : Type} (s : SubArena T) : Option (DropResult T) :=
  let stolen_vec := (s.inner.chunks.rest[0]?).getD s.inner.chunks.current
  (truncFuel stolen_vec.length stolen_vec s.old_len).map fun p =>
    { parent := { chunks := { current := p.1, rest := s.old.rest }, borrowed := false },
      truncRemoved := p.2,
      swappedOut := s.old.current,
      wholesale :=
        match s.inner.chunks.rest with
        | [] => []
        | _ :: t => t ++ [s.inner.chunks.current] }

/-- A chain of nested scopes, destroyed in strict LIFO order: each level
steals the current allocator's buffer (`from_chunks`), performs its own
allocations, runs the deeper chain, and is then dropped, handing its
restored chunk list to the level above. -/
def runChain {T : Type} (c : ChunkList T) :
    List (List (T × Bool)) → ChunkList T
  | [] => c
  | allocs :: deeper =>
    let s := SubArena.from_chunks c
    let d1 := s.inner.chunks.placeAll allocs
    let d2 := runChain d1 deeper
    (SubArena.dropFull
        { inner := { chunks := d2, borrowed := false },
          old := s.old, old_len := s.old_len }).parent.chunks

/-! ## Helper lemmas -/

/-- The truncation loop computes `take`, and the popped elements are the
dropped suffix in reverse. -/
theorem truncTrace_eq {T : Type} (v : List T) (n : Nat) :
    truncTrace v n = (v.take n, (v.drop n).reverse) := by
  rw [truncTrace]
  split
  case isTrue h =>
    have hne : v ≠ [] := by
      intro hv
      rw [hv] at h
      exact Nat.not_lt_zero n h
    have hlen : n ≤ v.dropLast.length := by
      rw [List.length_dropLast]
      omega
    have hsplit : v.dropLast ++ [v.getLast hne] = v :=
      List.dropLast_append_getLast hne
    have ih := truncTrace_eq v.dropLast n
    rw [ih]
    have htake : v.take n = v.dropLast.take n := by
      conv_lhs => rw [← hsplit]
      exact List.take_append_of_le_length hlen
    have hdrop : v.drop n = v.dropLast.drop n ++ [v.getLast hne] := by
      conv_lhs => rw [← hsplit]
      exact List.drop_append_of_le_length hlen
    simp [htake, hdrop]
  case isFalse h =>
    have h1 : v.length ≤ n := Nat.le_of_not_lt h
    simp [List.take_of_length_le h1, List.drop_of_length_le h1]
termination_by v.length
decreasing_by
  rw [List.length_dropLast]
  have : 0 < v.length := Nat.lt_of_le_of_lt (Nat.zero_le n) (by assumption)
  omega

/-- Closed form of the destructor. -/
theorem dropFull_eq {T : Type} (s : SubArena T) :
    s.dropFull =
      { parent := { chunks := { current := (boundaryBuf s.inner.chunks).take s.old_len,
                                rest := s.old.rest },
                    borrowed := false },
        truncRemoved := ((boundaryBuf s.inner.chunks).drop s.old_len).reverse,
        swappedOut := s.old.current,
        wholesale :=
          match s.inner.chunks.rest with
          | [] => []
          | _ :: t => t ++ [s.inner.chunks.current] } := by
  simp [SubArena.dropFull, truncTrace_eq]

/-- A single `place` step only ever appends to the end of `rest`. -/
theorem place_rest {T : Type} (c : ChunkList T) (v : T) (g : Bool) :
    (c.place v g).rest = c.rest ++ (if g then [c.current] else []) := by
  cases g <;> simp [ChunkList.place]

/-- A single `place` step extends the boundary-containing buffer on the
right (by `[v]` or not at all). -/
theorem boundaryBuf_place {T : Type} (c : ChunkList T) (v : T) (g : Bool) :
    ∃ zs, boundaryBuf (c.place v g) = boundaryBuf c ++ zs := by
  cases g
  · cases hr : c.rest with
    | nil => exact ⟨[v], by simp [ChunkList.place, boundaryBuf, hr]⟩
    | cons h t => exact ⟨[], by simp [ChunkList.place, boundaryBuf, hr]⟩
  · cases hr : c.rest with
    | nil => exact ⟨[], by simp [ChunkList.place, boundaryBuf, hr]⟩
    | cons h t => exact ⟨[], by simp [ChunkList.place, boundaryBuf, hr]⟩

theorem placeAll_cons {T : Type} (c : ChunkList T) (x : T × Bool)
    (xs : List (T × Bool)) :
    c.placeAll (x :: xs) = (c.place x.1 x.2).placeAll xs := rfl

/-- Over a whole scope, the boundary-containing buffer only grows on the
right. -/
theorem boundaryBuf_placeAll {T : Type} (xs : List (T × Bool)) (c : ChunkList T) :
    ∃ zs, boundaryBuf (c.placeAll xs) = boundaryBuf c ++ zs := by
  induction xs generalizing c with
  | nil => exact ⟨[], by simp [ChunkList.placeAll]⟩
  | cons x xs ih =>
    obtain ⟨zs₂, h₂⟩ := ih (c.place x.1 x.2)
    obtain ⟨zs₁, h₁⟩ := boundaryBuf_place c x.1 x.2
    refine ⟨zs₁ ++ zs₂, ?_⟩
    rw [placeAll_cons, h₂, h₁, List.append_assoc]

theorem elems_place {T : Type} (c : ChunkList T) (v : T) (g : Bool) :
    (c.place v g).elems = c.elems ++ [v] := by
  cases g <;> simp [ChunkList.place, ChunkList.elems]

theorem elems_placeAll {T : Type} (xs : List (T × Bool)) (c : ChunkList T) :
    (c.placeAll xs).elems = c.elems ++ xs.map Prod.fst := by
  induction xs generalizing c with
  | nil => simp [ChunkList.placeAll]
  | cons x xs ih =>
    rw [placeAll_cons, ih, elems_place, List.append_assoc]
    simp

/-- Dropping a sub-arena whose boundary buffer extends the original
`current` restores the parent exactly. -/
theorem drop_restore {T : Type} (c : ChunkList T) (d : ChunkList T)
    (h : ∃ zs, boundaryBuf d = c.current ++ zs) :
    (SubArena.dropFull
        { inner := { chunks := d, borrowed := false },
          old := { current := [], rest := c.rest },
          old_len := c.current.length }).parent =
      { chunks := c, borrowed := false } := by
  obtain ⟨zs, hz⟩ := h
  rw [dropFull_eq]
  simp only [hz, List.take_left]

/-- Dropping a sub-arena destroys exactly the elements placed after the
boundary. -/
theorem drop_destroyed {T : Type} (c : ChunkList T) (d : ChunkList T)
    (vals zs : List T)
    (he : d.elems = c.current ++ vals)
    (hb : boundaryBuf d = c.current ++ zs) :
    (SubArena.dropFull
        { inner := { chunks := d, borrowed := false },
          old := { current := [], rest := c.rest },
          old_len := c.current.length }).destroyedElems = vals := by
  rw [dropFull_eq]
  cases hr : d.rest with
  | nil =>
    have hcur : d.current = c.current ++ zs := by
      rw [← hb]
      simp [boundaryBuf, hr]
    have : c.current ++ zs = c.current ++ vals := by
      rw [← hcur, ← he]
      simp [ChunkList.elems, hr]
    have hzv : zs = vals := List.append_cancel_left this
    simp [DropResult.destroyedElems, boundaryBuf, hr, hcur, hzv,
      List.drop_left]
  | cons h t =>
    have hh : h = c.current ++ zs := by
      rw [← hb]
      simp [boundaryBuf, hr]
    have he2 : c.current ++ (zs ++ (t.flatten ++ d.current)) = c.current ++ vals := by
      rw [← List.append_assoc, ← hh, ← he]
      simp [ChunkList.elems, hr]
    have hv : zs ++ (t.flatten ++ d.current) = vals := List.append_cancel_left he2
    simp only [DropResult.destroyedElems, boundaryBuf, hr, List.head?_cons,
      Option.getD_some, List.reverse_reverse, hh, List.drop_left,
      List.flatten_append, List.flatten_cons, List.flatten_nil,
      List.append_nil, List.append_assoc]
    rw [← hv]

/-- Running a sequence of allocations through a sub-arena with no live
nested borrow always succeeds and is `placeAll` on the inner chunk list. -/
theorem runE_ok {T : Type} (xs : List (T × Bool)) (d : ChunkList T)
    (o : ChunkList T) (n : Nat) :
    SubArena.runE { inner := { chunks := d, borrowed := false }, old := o, old_len := n } xs =
      .ok { inner := { chunks := d.placeAll xs, borrowed := false },
            old := o, old_len := n } := by
  induction xs generalizing d with
  | nil => simp [SubArena.runE, ChunkList.placeAll]
  | cons x xs ih =>
    simp [SubArena.runE, SubArena.allocE, Except.bind, ih, placeAll_cons]

/-- With fuel at least the number of excess elements, the fallible loop
succeeds and agrees with the while loop. -/
theorem truncFuel_ok {T : Type} :
    ∀ (f : Nat) (v : List T) (n : Nat), v.length ≤ n + f →
      truncFuel f v n = some (truncTrace v n) := by
  intro f
  induction f with
  | zero =>
    intro v n hf
    have hnlt : ¬ n < v.length := by omega
    rw [truncTrace]
    simp [truncFuel, hnlt]
  | succ f ih =>
    intro v n hf
    by_cases hlt : n < v.length
    · have hne : v ≠ [] := by
        intro hv
        rw [hv] at hlt
        exact Nat.not_lt_zero n hlt
      have hg : v.getLast? = some (v.getLast hne) := List.getLast?_eq_getLast v hne
      have hlen : v.dropLast.length ≤ n + f := by
        rw [List.length_dropLast]
        omega
      rw [truncTrace]
      simp only [truncFuel, hlt, if_true, popV, hg, dif_pos hlt]
      rw [ih v.dropLast n hlen]
      simp
    · rw [truncTrace]
      simp [truncFuel, hlt]

/-- `rest[0]?` with the `unwrap_or` default is exactly the boundary
buffer. -/
theorem getElem_zero_boundary {T : Type} (c : ChunkList T) :
    (c.rest[0]?).getD c.current = boundaryBuf c := by
  cases hr : c.rest <;> simp [boundaryBuf, hr]

/-- A LIFO chain of nested scopes always restores the chunk list it started
from. -/
theorem runChain_id {T : Type} :
    ∀ (levels : List (List (T × Bool))) (c : ChunkList T),
      runChain c levels = c := by
  intro levels
  induction levels with
  | nil => intro c; rfl
  | cons allocs deeper ih =>
    intro c
    show (SubArena.dropFull
        { inner := { chunks := runChain (ChunkList.placeAll
            { current := c.current, rest := [] } allocs) deeper, borrowed := false },
          old := { current := [], rest := c.rest },
          old_len := c.current.length }).parent.chunks = c
    rw [ih]
    have hb : ∃ zs, boundaryBuf (ChunkList.placeAll
        { current := c.current, rest := [] } allocs) = c.current ++ zs := by
      obtain ⟨zs, hz⟩ := boundaryBuf_placeAll allocs
        ({ current := c.current, rest := [] } : ChunkList T)
      exact ⟨zs, by rw [hz]; simp [boundaryBuf]⟩
    rw [drop_restore c _ hb]

/-! ## Claim theorems -/

/-- C1: for every parent state and every sequence of allocations made
during a scope, opening the scope, allocating, and dropping it restores the
parent arena exactly (all pre-scope values, at indices below the boundary,
unchanged; nothing allocated during the scope observable), and in
particular an empty scope leaves the parent's current buffer
element-for-element identical. -/
theorem scope_isolation_restores_parent {T : Type} (c : ChunkList T)
    (xs : List (T × Bool)) :
    ((SubArena.newE { chunks := c, borrowed := false }).bind fun s =>
        (s.runE xs).map fun t => t.dropFull.parent) =
      .ok { chunks := c, borrowed := false } ∧
    (SubArena.from_chunks c).dropFull.parent.chunks.current = c.current := by
  constructor
  · have hb : ∃ zs, boundaryBuf (ChunkList.placeAll
        { current := c.current, rest := [] } xs) = c.current ++ zs := by
      obtain ⟨zs, hz⟩ := boundaryBuf_placeAll xs
        ({ current := c.current, rest := [] } : ChunkList T)
      exact ⟨zs, by rw [hz]; simp [boundaryBuf]⟩
    have h1 : SubArena.newE { chunks := c, borrowed := false } =
        .ok (SubArena.from_chunks c) := by
      simp [SubArena.newE]
    have h2 : SubArena.from_chunks c =
        { inner := { chunks := { current := c.current, rest := [] }, borrowed := false },
          old := { current := [], rest := c.rest },
          old_len := c.current.length } := rfl
    rw [h1, h2]
    show ((SubArena.runE _ xs).map fun t => t.dropFull.parent) = _
    rw [runE_ok]
    exact congrArg Except.ok (drop_restore c _ hb)
  · rw [dropFull_eq]
    simp [SubArena.from_chunks, boundaryBuf]

/-- C4: constructing a `SubArena` takes ownership of the parent's current
buffer (it becomes the inner allocator's `current`, with inner `rest`
empty), replaces it in place by a new empty buffer while leaving the
parent's archived `rest` untouched, and records the boundary as the stolen
buffer's length; the builder path (`SubArenaBuilder::build` via
`from_chunks`) constructs the same value. -/
theorem construction_steals_current {T : Type} (c : ChunkList T) :
    SubArena.newE { chunks := c, borrowed := false } =
      .ok { inner := { chunks := { current := c.current, rest := [] }, borrowed := false },
            old := { current := [], rest := c.rest },
            old_len := c.current.length } ∧
    (SubArenaBuilder.newE { chunks := c, borrowed := false }).map
        SubArenaBuilder.build =
      .ok { inner := { chunks := { current := c.current, rest := [] }, borrowed := false },
            old := { current := [], rest := c.rest },
            old_len := c.current.length } := by
  constructor
  · simp [SubArena.newE]
    rfl
  · simp [SubArenaBuilder.newE, Except.map]
    rfl

/-- C2: while a sub-arena derived from an allocator is alive, constructing
a second sub-arena from it (directly or through the builder) or allocating
through it fails with `BorrowConflict`, the attempted call aborting with no
state change; after any sub-arena is destroyed its parent is unborrowed and
the same operations succeed. -/
theorem exclusivity_borrow_conflict {T : Type} (c : ChunkList T) (v : T) (g : Bool) :
    SubArena.newE { chunks := c, borrowed := false } =
      .ok (SubArena.from_chunks c) ∧
    SubArena.newE (SubArena.from_chunks c).parentDuring =
      .error .BorrowConflict ∧
    SubArenaBuilder.newE (SubArena.from_chunks c).parentDuring =
      .error .BorrowConflict ∧
    (SubArena.from_chunks c).parentDuring.allocE v g =
      .error .BorrowConflict ∧
    (∀ s : SubArena T, s.dropFull.parent.borrowed = false) ∧
    (∀ s : SubArena T, ∃ t, SubArena.newE s.dropFull.parent = .ok t) ∧
    (∀ s : SubArena T, ∃ a, s.dropFull.parent.allocE v g = .ok a) := by
  refine ⟨?_, ?_, ?_, ?_, ?_, ?_, ?_⟩
  · simp [SubArena.newE]
  · simp [SubArena.newE, SubArena.parentDuring]
  · simp [SubArenaBuilder.newE, SubArena.parentDuring]
  · simp [Arena.allocE, SubArena.parentDuring]
  · intro s
    rw [dropFull_eq]
  · intro s
    have hb : s.dropFull.parent.borrowed = false := by rw [dropFull_eq]
    exact ⟨SubArena.from_chunks s.dropFull.parent.chunks, by simp [SubArena.newE, hb]⟩
  · intro s
    have hb : s.dropFull.parent.borrowed = false := by rw [dropFull_eq]
    exact ⟨{ chunks := (s.dropFull.parent.chunks).place v g, borrowed := false },
      by simp [Arena.allocE, hb]⟩

/-- C3: dropping a sub-arena truncates the first-archived entry of
`inner.rest` when `rest` is non-empty and `inner.current` otherwise, swaps
the truncated buffer (the pre-scope `current`, length = boundary) into the
parent's `current`, destroys every post-overflow buffer wholesale without
truncation, and thereby destroys exactly the scope-local elements, however
many growth events occurred. -/
theorem drop_unwind_mechanics {T : Type} (c : ChunkList T) (xs : List (T × Bool)) :
    (SubArena.dropFull
        { inner := { chunks := ChunkList.placeAll { current := c.current, rest := [] } xs,
                     borrowed := false },
          old := { current := [], rest := c.rest },
          old_len := c.current.length }).parent.chunks.current =
      (((ChunkList.placeAll { current := c.current, rest := [] } xs).rest.head?).getD
          (ChunkList.placeAll { current := c.current, rest := [] } xs).current).take
        c.current.length ∧
    (SubArena.dropFull
        { inner := { chunks := ChunkList.placeAll { current := c.current, rest := [] } xs,
                     borrowed := false },
          old := { current := [], rest := c.rest },
          old_len := c.current.length }).parent =
      { chunks := c, borrowed := false } ∧
    (SubArena.dropFull
        { inner := { chunks := ChunkList.placeAll { current := c.current, rest := [] } xs,
                     borrowed := false },
          old := { current := [], rest := c.rest },
          old_len := c.current.length }).wholesale =
      (match (ChunkList.placeAll { current := c.current, rest := [] } xs).rest with
       | [] => []
       | _ :: t => t ++ [(ChunkList.placeAll { current := c.current, rest := [] } xs).current]) ∧
    (SubArena.dropFull
        { inner := { chunks := ChunkList.placeAll { current := c.current, rest := [] } xs,
                     borrowed := false },
          old := { current := [], rest := c.rest },
          old_len := c.current.length }).destroyedElems = xs.map Prod.fst := by
  have hb : ∃ zs, boundaryBuf (ChunkList.placeAll
      { current := c.current, rest := [] } xs) = c.current ++ zs := by
    obtain ⟨zs, hz⟩ := boundaryBuf_placeAll xs
      ({ current := c.current, rest := [] } : ChunkList T)
    exact ⟨zs, by rw [hz]; simp [boundaryBuf]⟩
  have he : (ChunkList.placeAll { current := c.current, rest := [] } xs).elems =
      c.current ++ xs.map Prod.fst := by
    rw [elems_placeAll]
    simp [ChunkList.elems]
  obtain ⟨zs, hz⟩ := hb
  refine ⟨?_, ?_, ?_, ?_⟩
  · rw [dropFull_eq]
    rfl
  · exact drop_restore c _ ⟨zs, hz⟩
  · rw [dropFull_eq]
  · exact drop_destroyed c _ _ zs he hz

/-- C5: destroying a chain of nested scopes in strict LIFO order restores
the base allocator's contents to exactly what they were before the first
scope, whatever each level allocated; and in the concrete scenario the base
holds `[1, 2]`, the scope allocates `[3, 4]`, a freshly nested second scope
observes boundary `4`, its destruction hands `[1, 2, 3, 4]` back, and the
outer scope's destruction leaves the base holding exactly `[1, 2]`. -/
theorem nesting_symmetry_lifo :
    (∀ (T : Type) (levels : List (List (T × Bool))) (c : ChunkList T),
        runChain c levels = c) ∧
    ((SubArena.newE ({ chunks := { current := [1, 2], rest := [] },
                       borrowed := false } : Arena Nat)).bind
        fun s => s.runE [(3, false), (4, false)]) =
      .ok { inner := { chunks := { current := [1, 2, 3, 4], rest := [] },
                       borrowed := false },
            old := { current := [], rest := [] }, old_len := 2 } ∧
    (SubArena.from_chunks
        ({ current := [1, 2, 3, 4], rest := [] } : ChunkList Nat)).old_len = 4 ∧
    (SubArena.from_chunks
        ({ current := [1, 2, 3, 4], rest := [] } : ChunkList Nat)).dropFull.parent =
      { chunks := { current := [1, 2, 3, 4], rest := [] }, borrowed := false } ∧
    SubArena.dropFull
        { inner := { chunks := { current := [1, 2, 3, 4], rest := [] },
                     borrowed := false },
          old := { current := [], rest := [] }, old_len := 2 } =
      { parent := { chunks := { current := [1, 2], rest := [] }, borrowed := false },
        truncRemoved := [4, 3], swappedOut := [], wholesale := [] } := by
  refine ⟨fun _ => runChain_id, ?_, ?_, ?_, ?_⟩
  · have h1 : SubArena.newE ({ chunks := { current := [1, 2], rest := [] },
                               borrowed := false } : Arena Nat) =
        .ok (SubArena.from_chunks { current := [1, 2], rest := [] }) := by
      simp [SubArena.newE]
    rw [h1]
    show SubArena.runE
        { inner := { chunks := { current := [1, 2], rest := [] }, borrowed := false },
          old := { current := [], rest := [] }, old_len := 2 }
        [(3, false), (4, false)] = _
    rw [runE_ok]
    rfl
  · rfl
  · rw [dropFull_eq]
    rfl
  · rw [dropFull_eq]
    rfl

/-- C6 counterexample: place `1` (no growth), then `2` and `3` (each a
growth event).  The archived buffers are `[[1], [2]]`: the buffer archived
most recently (the most-recently-filled one, `[2]`) sits at the END of
`rest`, not first, so `rest` is NOT ordered most-recently-filled first. -/
theorem rest_order_counterexample :
    (ChunkList.placeAll ({ current := [], rest := [] } : ChunkList Nat)
        [(1, false), (2, true), (3, true)]).rest = [[1], [2]] ∧
    ((ChunkList.placeAll ({ current := [], rest := [] } : ChunkList Nat)
        [(1, false), (2, true), (3, true)]).rest).head? ≠ some [2] := by
  decide

/-- C6 amended: `rest` is an ordered sequence of previously-filled buffers,
FIRST-archived first (most-recently-filled last); it is append-only — a
growth event appends the filled buffer at the end and a non-growing
allocation leaves `rest` untouched — and no archived buffer of the parent
is mutated in place by scope exit (only the boundary-containing buffer of
the sub-arena's own chunk list is truncated). -/
theorem rest_append_only_amended :
    (∀ (T : Type) (c : ChunkList T) (v : T), (c.place v false).rest = c.rest) ∧
    (∀ (T : Type) (c : ChunkList T) (v : T),
        (c.place v true).rest = c.rest ++ [c.current]) ∧
    (∀ (T : Type) (s : SubArena T), s.dropFull.parent.chunks.rest = s.old.rest) := by
  refine ⟨?_, ?_, ?_⟩
  · intro T c v
    simp [ChunkList.place]
  · intro T c v
    simp [ChunkList.place]
  · intro T s
    rw [dropFull_eq]

/-- C7: the two-phase builder path is behaviorally identical to direct
construction — `SubArenaBuilder::new(a).build()` yields exactly
`SubArena::new(a)` in both the success and the conflict case — and a
conflicting borrow already fails in phase one (`SubArenaBuilder::new`).
The lifetime-erasing `mem::transmute` has no value-level content: `build`
passes the borrowed chunk list to `from_chunks` unchanged. -/
theorem builder_build_equiv_new {T : Type} (a : Arena T) (c : ChunkList T) :
    (SubArenaBuilder.newE a).map SubArenaBuilder.build = SubArena.newE a ∧
    SubArenaBuilder.newE ({ chunks := c, borrowed := true } : Arena T) =
      .error .BorrowConflict ∧
    SubArenaBuilder.build ({ data := c } : SubArenaBuilder T) =
      SubArena.from_chunks c := by
  refine ⟨?_, ?_, rfl⟩
  · by_cases hb : a.borrowed <;>
      simp [SubArenaBuilder.newE, SubArena.newE, SubArenaBuilder.build,
        Except.map, hb]
  · simp [SubArenaBuilder.newE]

/-- C8: destruction is total.  The fallibility-explicit rendering of the
destructor — in which the buffer selection is an explicit `Option` and the
truncation loop pops fallibly on bounded fuel — succeeds on EVERY sub-arena
state (empty, single-buffer, or overflowed scope) and agrees with the
destructor. -/
theorem drop_total_no_failure {T : Type} (s : SubArena T) :
    s.dropChecked = some s.dropFull := by
  have h := truncFuel_ok (boundaryBuf s.inner.chunks).length
    (boundaryBuf s.inner.chunks) s.old_len (Nat.le_add_left _ _)
  simp only [SubArena.dropChecked, SubArena.dropFull, getElem_zero_boundary,
    h, Option.map_some']

/-- C9: dropping a `SubArenaBuilder` without calling `build` leaves the
parent's chunk list entirely unchanged (the current buffer is only stolen
inside `from_chunks`, which `build` alone invokes) and releases the
exclusive borrow, after which the parent allocates normally. -/
theorem builder_drop_frame {T : Type} (c : ChunkList T) (v : T) (g : Bool) :
    SubArenaBuilder.newE { chunks := c, borrowed := false } =
      .ok ({ data := c } : SubArenaBuilder T) ∧
    SubArenaBuilder.dropB ({ data := c } : SubArenaBuilder T) =
      { chunks := c, borrowed := false } ∧
    (SubArenaBuilder.dropB ({ data := c } : SubArenaBuilder T)).allocE v g =
      .ok { chunks := c.place v g, borrowed := false } := by
  refine ⟨?_, rfl, ?_⟩
  · simp [SubArenaBuilder.newE]
  · simp [SubArenaBuilder.dropB, Arena.allocE]

/-- C10: the truncation loop destroys the elements at indices at or above
the boundary of the boundary-containing buffer one pop at a time, most
recently placed element first — its destruction trace is exactly the
reverse of the dropped suffix — leaving the first `boundary` elements as
the parent's restored `current`. -/
theorem truncation_reverse_order {T : Type} (s : SubArena T) :
    s.dropFull.truncRemoved =
      ((boundaryBuf s.inner.chunks).drop s.old_len).reverse ∧
    s.dropFull.parent.chunks.current =
      (boundaryBuf s.inner.chunks).take s.old_len := by
  rw [dropFull_eq]
  exact ⟨rfl, rfl⟩

end TypedArena
